import Mathlib

/-!
Verification of the clean-and-deduplicate loading stage of the flight ETL
pipeline.  The Python sources `src/clean/clean_load.py` and
`src/models/clean_flight.py` are shallowly embedded below: Python strings
become `List Char`, Python dynamic scalar values become the inductive
`PyVal`, fallible code returns `Except`/`Option`, and the graph store is
modelled as a finite map from `flight_id` to property records.
-/

/-- Python strings are modelled as lists of characters. -/
abbrev Str := List Char

/-- Whitespace recognised by Python `str.strip()` (space, tab, newline,
carriage return, vertical tab, form feed), identified by code point. -/
def pyIsSpace (c : Char) : Bool :=
  c.toNat = 32 || c.toNat = 9 || c.toNat = 10 || c.toNat = 13 ||
  c.toNat = 11 || c.toNat = 12

/-- Python `str.upper()` on one ASCII character: lowercase letters
(code points 97–122) are shifted down by 32, all else is unchanged. -/
def pyUpperChar (c : Char) : Char :=
  if 97 ≤ c.toNat ∧ c.toNat ≤ 122 then Char.ofNat (c.toNat - 32) else c

/-- Python `str.lower()` on one ASCII character. -/
def pyLowerChar (c : Char) : Char :=
  if 65 ≤ c.toNat ∧ c.toNat ≤ 90 then Char.ofNat (c.toNat + 32) else c

/-- Python `str.upper()` over a whole string (ASCII fragment). -/
def pyUpperStr (s : Str) : Str := s.map pyUpperChar

/-- Python `str.lower()` over a whole string (ASCII fragment). -/
def pyLowerStr (s : Str) : Str := s.map pyLowerChar

/-- Python `str.strip()`: remove leading and trailing whitespace. -/
def stripWS (s : Str) : Str :=
  ((s.dropWhile pyIsSpace).reverse.dropWhile pyIsSpace).reverse

/-- The decimal digit character for `n < 10`. -/
def natDigitChar (n : ℕ) : Char := Char.ofNat (48 + n)

/-- Decimal digits of `n`, least significant first; `fuel` bounds the
recursion and any `fuel ≥ number of digits` gives the full expansion. -/
def natDigitsRev (fuel : ℕ) (n : ℕ) : Str :=
  match fuel with
  | 0 => []
  | f + 1 => if n = 0 then [] else natDigitChar (n % 10) :: natDigitsRev f (n / 10)

/-- Decimal rendering of a natural number, as Python `str` produces it. -/
def natRepr (n : ℕ) : Str :=
  if n = 0 then ['0'] else (natDigitsRev (n + 1) n).reverse

/-- Decimal rendering of an integer, as Python `str` produces it. -/
def intRepr (z : ℤ) : Str :=
  if z < 0 then '-' :: natRepr z.natAbs else natRepr z.toNat

/-- Left-pad `s` with copies of `c` up to width `w`. -/
def leftPad (c : Char) (w : ℕ) (s : Str) : Str :=
  List.replicate (w - s.length) c ++ s

/-- Python `f-string` formatting `{z:04d}`: minimum width 4, zero padded,
the sign (when present) counting towards the width. -/
def pad4 (z : ℤ) : Str :=
  if z < 0 then '-' :: leftPad '0' 3 (natRepr z.natAbs)
  else leftPad '0' 4 (natRepr z.toNat)

/-- Python `datetime.date.isoformat()`: `YYYY-MM-DD` with zero padding. -/
def isoformat (y m d : ℕ) : Str :=
  leftPad '0' 4 (natRepr y) ++ '-' :: (leftPad '0' 2 (natRepr m) ++ '-' :: leftPad '0' 2 (natRepr d))

/-- A Python float value: either a finite value (modelled as an exact
rational; IEEE-754 rounding is not modelled) or the not-a-number value. -/
inductive PFloat where
  | fin (q : ℚ) : PFloat
  | nan : PFloat
deriving DecidableEq

/-- A Python scalar cell value as it occurs in this pipeline: `None`, an
`int`, a finite `float` (exact-rational model), the float `nan` (how pandas
represents a missing CSV cell), a `str`, or a `datetime.date`. -/
inductive PyVal where
  | vNone : PyVal
  | vInt (z : ℤ) : PyVal
  | vFloat (q : ℚ) : PyVal
  | vNaN : PyVal
  | vStr (s : Str) : PyVal
  | vDate (y m d : ℕ) : PyVal
deriving DecidableEq

open PyVal

/-- Decimal digits of the fractional part `f` (with `0 ≤ f < 1`), at most
`fuel` digits; Python's shortest-roundtrip float repr is approximated by a
17-digit cap, exact on the short decimal fractions this pipeline handles. -/
def fracDigits (fuel : ℕ) (f : ℚ) : Str :=
  match fuel with
  | 0 => []
  | fu + 1 =>
    if f = 0 then []
    else natDigitChar (⌊f * 10⌋).toNat :: fracDigits fu (f * 10 - ⌊f * 10⌋)

/-- Python `str()` of a finite float: sign, integer part, a dot, and the
fractional digits (at least one digit, as in `str(5.0) = "5.0"`). -/
def floatRepr (q : ℚ) : Str :=
  (if q < 0 then ['-'] else []) ++ natRepr (⌊|q|⌋).toNat ++
    '.' :: (if |q| - ⌊|q|⌋ = 0 then ['0'] else fracDigits 17 (|q| - ⌊|q|⌋))

/-- Python `str()` of a scalar value. -/
def pyStr : PyVal → Str
  | vNone => "None".toList
  | vInt z => intRepr z
  | vFloat q => floatRepr q
  | vNaN => "nan".toList
  | vStr s => s
  | vDate y m d => isoformat y m d

/-- Python truthiness of a scalar value (`None`, `0`, `0.0` and the empty
string are falsy; `nan` and every date are truthy). -/
def pyTruthy : PyVal → Bool
  | vNone => false
  | vInt z => z ≠ 0
  | vFloat q => q ≠ 0
  | vNaN => true
  | vStr s => s ≠ []
  | vDate _ _ _ => true

/-- Python `a or b` on scalar values: `a` when truthy, else `b`. -/
def pyOr (a b : PyVal) : PyVal := if pyTruthy a then a else b

/-- Value of a list of decimal digit characters, most significant first. -/
def digitsVal (l : Str) : ℕ := l.foldl (fun a c => 10 * a + (c.toNat - 48)) 0

/-- Python `float(str)` on the decimal-literal fragment this pipeline
uses: surrounding whitespace, an optional sign, then digits with an
optional fractional part (exponent, `inf` and `nan` literals are outside
the modelled fragment and are treated as parse failures). Returns `none`
exactly when Python raises `ValueError` on the modelled fragment. -/
def pyFloatOfStr (s : Str) : Option ℚ :=
  let s1 := stripWS s
  let sign : ℚ := if s1.head? = some '-' then -1 else 1
  let s2 := if s1.head? = some '-' ∨ s1.head? = some '+' then s1.tail else s1
  let ip := s2.takeWhile Char.isDigit
  let rest := s2.dropWhile Char.isDigit
  match rest with
  | [] => if ip = [] then none else some (sign * digitsVal ip)
  | '.' :: t =>
    let fp := t.takeWhile Char.isDigit
    let rest2 := t.dropWhile Char.isDigit
    if rest2 ≠ [] then none
    else if ip = [] ∧ fp = [] then none
    else some (sign * (digitsVal ip + digitsVal fp / 10 ^ fp.length))
  | _ => none

/-- Truncation of a rational towards zero, the behaviour of Python
`int(float)` on finite floats. -/
def truncQ (q : ℚ) : ℤ := if 0 ≤ q then ⌊q⌋ else ⌈q⌉

/-- Python built-in `float(x)` on a scalar: numbers pass through, strings
are parsed, `None` and dates raise `TypeError` (modelled as `error`). -/
def pyFloatFn : PyVal → Except Str PFloat
  | vNone => Except.error "float() argument must be a string or a real number".toList
  | vInt z => Except.ok (PFloat.fin (z : ℚ))
  | vFloat q => Except.ok (PFloat.fin q)
  | vNaN => Except.ok PFloat.nan
  | vStr s =>
    match pyFloatOfStr s with
    | some q => Except.ok (PFloat.fin q)
    | none => Except.error "could not convert string to float".toList
  | vDate _ _ _ => Except.error "float() argument must be a string or a real number".toList

/-- Python built-in `int(f)` on a float: truncate towards zero; `nan`
raises `ValueError` (modelled as `error`). -/
def pyIntFn : PFloat → Except Str ℤ
  | PFloat.fin q => Except.ok (truncQ q)
  | PFloat.nan => Except.error "cannot convert float NaN to integer".toList

/-- Decidable equality for `Except`, to let concrete runs of the fallible
operations be checked by `decide`. -/
instance {ε α : Type} [DecidableEq ε] [DecidableEq α] : DecidableEq (Except ε α) :=
  fun a b =>
    match a, b with
    | Except.error e1, Except.error e2 =>
      if h : e1 = e2 then Decidable.isTrue (by rw [h])
      else Decidable.isFalse (by intro hh; cases hh; exact h rfl)
    | Except.ok a1, Except.ok a2 =>
      if h : a1 = a2 then Decidable.isTrue (by rw [h])
      else Decidable.isFalse (by intro hh; cases hh; exact h rfl)
    | Except.error _, Except.ok _ => Decidable.isFalse (fun hh => Except.noConfusion hh)
    | Except.ok _, Except.error _ => Decidable.isFalse (fun hh => Except.noConfusion hh)

/-- Python `int(float(x))`: the composition used both by the Key Builder
and by `to_int`; either step's exception propagates. -/
def pyIntOfFloatVal (v : PyVal) : Except Str ℤ :=
  match pyFloatFn v with
  | Except.error e => Except.error e
  | Except.ok f => pyIntFn f

/-- The error message of `build_flight_id` when a required field is
missing. -/
def missingMsg : Str := "Missing fields for build_flight_id".toList

/-- The positional core of `build_flight_id` from `clean_load.py`
(lines 43–53): reject `None` inputs, render the date (ISO format for date
objects, `str(...).strip()` otherwise), trim and upper-case the three
codes, coerce the scheduled time through `int(float(...))` (whose parse
failure propagates, uncaught), and join with pipes and a dash. -/
def build_flight_id (fl_date_val carrier_val origin_val dest_val crs_val : PyVal) :
    Except Str Str :=
  if fl_date_val = vNone ∨ carrier_val = vNone ∨ origin_val = vNone ∨
      dest_val = vNone ∨ crs_val = vNone then
    Except.error missingMsg
  else
    let fl_date_str := match fl_date_val with
      | vDate y m d => isoformat y m d
      | x => stripWS (pyStr x)
    let carrier_str := pyUpperStr (stripWS (pyStr carrier_val))
    let origin_str := pyUpperStr (stripWS (pyStr origin_val))
    let dest_str := pyUpperStr (stripWS (pyStr dest_val))
    match pyIntOfFloatVal crs_val with
    | Except.error e => Except.error e
    | Except.ok n =>
      Except.ok (fl_date_str ++ '|' :: carrier_str ++ '|' :: origin_str ++
        '|' :: dest_str ++ '-' :: pad4 n)

/-- A row mapping (Python dict): an association list from column name to
scalar value, first binding wins. -/
abbrev RawRec := List (String × PyVal)

/-- Python `row.get(k)`: the bound value, or `None` when absent. -/
def getVal (rec : RawRec) (k : String) : PyVal :=
  match rec.find? (fun p => p.1 = k) with
  | some p => p.2
  | none => vNone

/-- The mapping branch of `build_flight_id` (lines 29–35): each field is
resolved by chaining `row.get` calls with Python `or`, then the positional
core runs on the resolved values. -/
def build_flight_id_row (row : RawRec) : Except Str Str :=
  build_flight_id
    (pyOr (pyOr (getVal row "fl_date") (getVal row "FL_DATE")) (getVal row "date"))
    (pyOr (pyOr (getVal row "carrier") (getVal row "op_carrier")) (getVal row "OP_CARRIER"))
    (pyOr (getVal row "origin") (getVal row "ORIGIN"))
    (pyOr (getVal row "dest") (getVal row "DEST"))
    (pyOr (getVal row "crs_dep_time") (getVal row "CRS_DEP_TIME"))

/-- Coercion `to_int` from `clean_load.py` (lines 69–75): `None` and the
float `nan` map to `None`; otherwise `int(float(x))` is attempted and any
exception is swallowed into `None`. -/
def to_int (x : PyVal) : Option ℤ :=
  if x = vNone ∨ x = vNaN then none
  else
    match pyIntOfFloatVal x with
    | Except.error _ => none
    | Except.ok n => some n

/-- Coercion `to_float` from `clean_load.py` (lines 78–84): `None` and the
float `nan` map to `None`; otherwise `float(x)` is attempted and any
exception is swallowed into `None`. -/
def to_float (x : PyVal) : Option PFloat :=
  if x = vNone ∨ x = vNaN then none
  else
    match pyFloatFn x with
    | Except.error _ => none
    | Except.ok f => some f

/-- A calendar date value as carried by a validated record. -/
structure PDate where
  year : ℕ
  month : ℕ
  day : ℕ
deriving DecidableEq

/-- Field validator `CleanFlight.validate_crs_dep_time` from
`clean_flight.py` (lines 33–48): an HHMM-encoded time must lie in
[0, 2359] and have minute component below 60. -/
def validate_crs_dep_time (v : ℤ) : Except Str ℤ :=
  if v < 0 ∨ v > 2359 then
    Except.error "crs_dep_time must be between 0 and 2359".toList
  else if v % 100 ≥ 60 then
    Except.error "crs_dep_time minutes must be less than 60".toList
  else Except.ok v

/-- Field validator `CleanFlight.normalize_codes` from `clean_flight.py`
(lines 50–58): reject `None`, trim and upper-case, reject the result when
empty. -/
def normalize_codes (v : Option Str) : Except Str Str :=
  match v with
  | none => Except.error "code cannot be null".toList
  | some s =>
    let u := pyUpperStr (stripWS s)
    if u = [] then Except.error "code cannot be empty".toList
    else Except.ok u

/-- The validated clean-flight entity of `clean_flight.py` (lines 17–28). -/
structure CleanFlight where
  flight_id : Str
  fl_date : PDate
  carrier : Str
  origin : Str
  dest : Str
  crs_dep_time : ℤ
  dep_delay : Option ℚ
  arr_delay : Option ℚ
  cancelled : ℤ
  diverted : ℤ
  distance : Option ℚ
deriving DecidableEq

/-- Construction of a `CleanFlight`, running the field validators of
`clean_flight.py`: the three code fields go through `normalize_codes` and
the scheduled time through `validate_crs_dep_time`; all other fields pass
through untouched. -/
def mkCleanFlight (flight_id : Str) (fl_date : PDate) (carrier origin dest : Option Str)
    (crs_dep_time : ℤ) (dep_delay arr_delay : Option ℚ) (cancelled diverted : ℤ)
    (distance : Option ℚ) : Except Str CleanFlight := do
  let c ← normalize_codes carrier
  let o ← normalize_codes origin
  let d ← normalize_codes dest
  let t ← validate_crs_dep_time crs_dep_time
  pure ⟨flight_id, fl_date, c, o, d, t, dep_delay, arr_delay, cancelled, diverted, distance⟩

/-- Value usability test of `pick` in `clean_load.py` (line 64): pandas
`notna` (false exactly on `None` and `nan`) and a non-blank string form. -/
def pickUsable (v : PyVal) : Bool :=
  ¬(v = vNone ∨ v = vNaN) ∧ stripWS (pyStr v) ≠ []

/-- Alias resolution `pick` from `clean_load.py` (lines 62–66): the first
listed key bound in the row to a non-null, non-blank value wins. -/
def pick (rec : RawRec) (keys : List String) : Option PyVal :=
  match keys with
  | [] => none
  | k :: rest =>
    if (rec.find? (fun p => p.1 = k)).isSome ∧ pickUsable (getVal rec k) then
      some (getVal rec k)
    else pick rec rest

/-- Column-name normalisation of `norm_cols` from `clean_load.py`
(lines 56–59): `str(c).strip().lower()` on each column name. -/
def normCol (s : String) : String := ⟨pyLowerStr (stripWS s.toList)⟩

/-- `norm_cols` applied to one row of a chunk: every column name is
trimmed and lower-cased (values untouched). -/
def norm_cols (rec : RawRec) : RawRec := rec.map (fun p => (normCol p.1, p.2))

/-- The property record written for one retained row by `main` in
`clean_load.py` (lines 131–144). -/
structure LoadRow where
  flight_id : Str
  fl_date : Str
  op_carrier : Str
  op_carrier_fl_num : Str
  origin : Str
  dest : Str
  crs_dep_time : Option ℤ
  dep_time : Option ℤ
  dep_delay : Option PFloat
  arr_delay : Option PFloat
  cancelled : Option ℤ
  diverted : Option ℤ
deriving DecidableEq

/-- Python `str(x)` where `x` is an optional value: `str(None)` is the
string `"None"` (this is how absent fields end up inside `flight_id`). -/
def pyStrOpt : Option PyVal → Str
  | none => "None".toList
  | some v => pyStr v

/-- Alias lists used by `main` for the five identity-relevant fields. -/
def flDateKeys : List String := ["fl_date", "flight_date", "flightdate"]

/-- Alias list for the carrier field in `main`. -/
def carrierKeys : List String := ["op_carrier", "carrier", "unique_carrier"]

/-- Alias list for the flight-number field in `main`. -/
def flNumKeys : List String := ["op_carrier_fl_num", "flight_num", "fl_num"]

/-- Alias list for the origin field in `main`. -/
def originKeys : List String := ["origin", "origin_airport", "orig"]

/-- Alias list for the destination field in `main`. -/
def destKeys : List String := ["dest", "destination", "dest_airport"]

/-- `to_int` composed with a `pick` result (an absent pick is Python
`None`). -/
def toIntOpt (v : Option PyVal) : Option ℤ :=
  to_int (match v with | none => vNone | some x => x)

/-- `to_float` composed with a `pick` result. -/
def toFloatOpt (v : Option PyVal) : Option PFloat :=
  to_float (match v with | none => vNone | some x => x)

/-- The per-row body of `main`'s loop (`clean_load.py` lines 119–146):
resolve the aliased fields, drop the row (`continue`) when origin or dest
is unresolved, and otherwise build the property record, whose `flight_id`
is the underscore join of the five resolved raw fields (no trimming, no
upper-casing, `None` rendered as the string `"None"`). -/
def processRow (rec : RawRec) : Option LoadRow :=
  let fl_date := pick rec flDateKeys
  let op_carrier := pick rec carrierKeys
  let op_carrier_fl_num := pick rec flNumKeys
  let origin := pick rec originKeys
  let dest := pick rec destKeys
  match origin, dest with
  | some ov, some dv =>
    some
      { flight_id := pyStrOpt fl_date ++ '_' :: (pyStrOpt op_carrier ++
          '_' :: (pyStrOpt op_carrier_fl_num ++ '_' :: (pyStr ov ++ '_' :: pyStr dv)))
        fl_date := pyStrOpt fl_date
        op_carrier := pyStrOpt op_carrier
        op_carrier_fl_num := pyStrOpt op_carrier_fl_num
        origin := stripWS (pyStr ov)
        dest := stripWS (pyStr dv)
        crs_dep_time := toIntOpt (pick rec ["crs_dep_time"])
        dep_time := toIntOpt (pick rec ["dep_time"])
        dep_delay := toFloatOpt (pick rec ["dep_delay"])
        arr_delay := toFloatOpt (pick rec ["arr_delay"])
        cancelled := toIntOpt (pick rec ["cancelled"])
        diverted := toIntOpt (pick rec ["diverted"]) }
  | _, _ => none

/-- One step of `main`'s accumulator loop: state is (running total,
pending batch); an accepted row is appended and a full batch (length
reaching `batchSize`) is flushed, adding its length to the total. -/
def loadChunkStep (batchSize : ℕ) (p : ℕ × List LoadRow) (rec : RawRec) :
    ℕ × List LoadRow :=
  match processRow (norm_cols rec) with
  | none => p
  | some row =>
    let rows := p.2 ++ [row]
    if batchSize ≤ rows.length then (p.1 + rows.length, []) else (p.1, rows)

/-- Processing of one CSV chunk by `main`: fold the accumulator loop over
the chunk's rows, then drain the final partial batch (lines 153–155). -/
def loadChunk (batchSize : ℕ) (total : ℕ) (chunk : List RawRec) : ℕ :=
  let p := chunk.foldl (loadChunkStep batchSize) (total, [])
  p.1 + p.2.length

/-- The total row count reported by `main` after consuming every chunk of
the input stream. -/
def mainTotal (batchSize : ℕ) (chunks : List (List RawRec)) : ℕ :=
  chunks.foldl (loadChunk batchSize) 0

/-- The graph store restricted to what the load path touches: the
`CleanFlight` nodes in creation order (`keys`) and their property records
(`data`). -/
@[ext]
structure Store where
  keys : List Str
  data : Str → Option LoadRow

/-- The upsert of `main`'s batch statement for one row (`clean_load.py`
lines 106–111): `MERGE` finds or creates the node keyed by `flight_id`,
then `SET f += row` overwrites its properties with the row's (every
property key occurs in every row, so the merge sets the full record). -/
def upsert (s : Store) (r : LoadRow) : Store :=
  { keys := if r.flight_id ∈ s.keys then s.keys else s.keys ++ [r.flight_id]
    data := fun k => if k = r.flight_id then some r else s.data k }

/-- Applying a whole batch: the `UNWIND` runs the upsert once per row, in
order. -/
def applyBatch (s : Store) (b : List LoadRow) : Store := b.foldl upsert s

/-- The last property record a batch writes under key `k`, if any. -/
def lastWrite : List LoadRow → Str → Option LoadRow
  | [], _ => none
  | r :: t, k =>
    match lastWrite t k with
    | some p => some p
    | none => if k = r.flight_id then some r else none

/-! Helper lemmas about decimal rendering. -/

lemma length_natDigitsRev_le (fuel : ℕ) :
    ∀ n k : ℕ, n < 10 ^ k → (natDigitsRev fuel n).length ≤ k := by
  induction fuel with
  | zero => intro n k _; simp [natDigitsRev]
  | succ f ih =>
    intro n k hnk
    by_cases hn : n = 0
    · simp [natDigitsRev, hn]
    · cases k with
      | zero => omega
      | succ k =>
        have hdiv : n / 10 < 10 ^ k := by
          have : n < 10 ^ k * 10 := by
            calc n < 10 ^ (k + 1) := hnk
            _ = 10 ^ k * 10 := by ring
          omega
        simp only [natDigitsRev, hn, if_false, List.length_cons]
        have := ih (n / 10) k hdiv
        omega

lemma isDigit_natDigitChar : ∀ m : ℕ, m < 10 → (natDigitChar m).isDigit = true := by
  decide

lemma isDigit_mem_natDigitsRev (fuel : ℕ) :
    ∀ n : ℕ, ∀ c ∈ natDigitsRev fuel n, c.isDigit = true := by
  induction fuel with
  | zero => intro n c hc; simp [natDigitsRev] at hc
  | succ f ih =>
    intro n c hc
    by_cases hn : n = 0
    · simp [natDigitsRev, hn] at hc
    · simp only [natDigitsRev, hn, if_false, List.mem_cons] at hc
      rcases hc with hc | hc
      · exact hc ▸ isDigit_natDigitChar _ (Nat.mod_lt _ (by omega))
      · exact ih _ c hc

lemma length_natRepr_le (n k : ℕ) (hn : n < 10 ^ k) (hk : 0 < k) :
    (natRepr n).length ≤ k := by
  unfold natRepr
  by_cases h : n = 0
  · simp [h]; omega
  · simpa [h] using length_natDigitsRev_le (n + 1) n k hn

lemma isDigit_mem_natRepr (n : ℕ) : ∀ c ∈ natRepr n, c.isDigit = true := by
  intro c hc
  unfold natRepr at hc
  by_cases h : n = 0
  · simp [h] at hc; simp [hc]
  · simp only [h, if_false, List.mem_reverse] at hc
    exact isDigit_mem_natDigitsRev (n + 1) n c hc

lemma length_leftPad (c : Char) (w : ℕ) (s : Str) (h : s.length ≤ w) :
    (leftPad c w s).length = w := by
  simp [leftPad]; omega

lemma pad4_spec (z : ℤ) (h0 : 0 ≤ z) (h1 : z ≤ 2359) :
    (pad4 z).length = 4 ∧ ∀ c ∈ pad4 z, c.isDigit = true := by
  have hz : ¬ z < 0 := by omega
  have hlt : z.toNat < 10 ^ 4 := by omega
  have hlen : (natRepr z.toNat).length ≤ 4 := length_natRepr_le _ 4 hlt (by omega)
  constructor
  · simp only [pad4, hz, if_false]
    exact length_leftPad _ _ _ hlen
  · intro c hc
    simp only [pad4, hz, if_false, leftPad, List.mem_append, List.mem_replicate] at hc
    rcases hc with hc | hc
    · simp [hc.2]
    · exact isDigit_mem_natRepr _ c hc

lemma truncQ_intCast (z : ℤ) : truncQ ((z : ℚ)) = z := by
  unfold truncQ
  by_cases h : (0 : ℚ) ≤ (z : ℚ) <;> simp [h]

/-! Helper lemmas about trimming and upper-casing. -/

lemma dropWhile_append_ws {w r : Str} (hw : ∀ c ∈ w, pyIsSpace c = true) :
    (w ++ r).dropWhile pyIsSpace = r.dropWhile pyIsSpace := by
  induction w with
  | nil => simp
  | cons c t ih =>
    have hc : pyIsSpace c = true := hw c (List.mem_cons_self c t)
    simp only [List.cons_append, List.dropWhile_cons, hc, if_true]
    exact ih (fun x hx => hw x (List.mem_cons_of_mem c hx))

lemma dropWhile_append_of_ne_nil {p : Char → Bool} {x : Str} (y : Str)
    (hx : x.dropWhile p ≠ []) : (x ++ y).dropWhile p = x.dropWhile p ++ y := by
  induction x with
  | nil => simp [List.dropWhile] at hx
  | cons c t ih =>
    by_cases hc : p c
    · simp only [List.dropWhile_cons, hc, if_true] at hx ⊢
      simp only [List.cons_append, List.dropWhile_cons, hc, if_true]
      exact ih hx
    · simp [List.dropWhile_cons, hc]

lemma dropWhile_ws_eq_nil {w : Str} (hw : ∀ c ∈ w, pyIsSpace c = true) :
    w.dropWhile pyIsSpace = [] := by
  simpa using dropWhile_append_ws (r := []) hw

lemma ws_of_dropWhile_eq_nil {w : Str} (h : w.dropWhile pyIsSpace = []) :
    ∀ c ∈ w, pyIsSpace c = true := by
  induction w with
  | nil => simp
  | cons c t ih =>
    by_cases hc : pyIsSpace c
    · simp only [List.dropWhile_cons, hc, if_true] at h
      intro x hx
      rcases List.mem_cons.mp hx with rfl | hx
      · exact hc
      · exact ih h x hx
    · simp [List.dropWhile_cons, hc] at h

lemma stripWS_pad {w1 w2 : Str} (x : Str)
    (h1 : ∀ c ∈ w1, pyIsSpace c = true) (h2 : ∀ c ∈ w2, pyIsSpace c = true) :
    stripWS (w1 ++ x ++ w2) = stripWS x := by
  unfold stripWS
  rw [List.append_assoc, dropWhile_append_ws h1]
  by_cases hx : x.dropWhile pyIsSpace = []
  · rw [hx]
    have hall : ∀ c ∈ x ++ w2, pyIsSpace c = true := by
      intro c hc
      rcases List.mem_append.mp hc with hc | hc
      · exact ws_of_dropWhile_eq_nil hx c hc
      · exact h2 c hc
    rw [dropWhile_ws_eq_nil hall]
  · rw [dropWhile_append_of_ne_nil w2 hx, List.reverse_append,
      dropWhile_append_ws (by simpa using h2)]

lemma pyIsSpace_pyUpperChar (c : Char) : pyIsSpace (pyUpperChar c) = pyIsSpace c := by
  unfold pyUpperChar
  by_cases h : 97 ≤ c.toNat ∧ c.toNat ≤ 122
  · have key : ∀ n : ℕ, n < 123 → 97 ≤ n → pyIsSpace (Char.ofNat (n - 32)) = false := by
      decide
    have hc : pyIsSpace c = false := by
      unfold pyIsSpace
      have h1 := h.1
      simp only [Bool.or_eq_false_iff, decide_eq_false_iff_not]
      omega
    rw [if_pos h, hc, key c.toNat (by omega) h.1]
  · simp [h]

lemma dropWhile_pyUpperStr (s : Str) :
    (pyUpperStr s).dropWhile pyIsSpace = pyUpperStr (s.dropWhile pyIsSpace) := by
  induction s with
  | nil => simp [pyUpperStr]
  | cons c t ih =>
    by_cases hc : pyIsSpace c
    · simp only [pyUpperStr, List.map_cons, List.dropWhile_cons,
        pyIsSpace_pyUpperChar, hc, if_true]
      exact ih
    · simp [pyUpperStr, List.dropWhile_cons, pyIsSpace_pyUpperChar, hc]

lemma pyUpperStr_stripWS (s : Str) : pyUpperStr (stripWS s) = stripWS (pyUpperStr s) := by
  unfold stripWS
  rw [dropWhile_pyUpperStr]
  have hrev : ∀ t : Str, pyUpperStr t.reverse = (pyUpperStr t).reverse := by
    intro t; simp [pyUpperStr, List.map_reverse]
  rw [← hrev, dropWhile_pyUpperStr, ← hrev]

/-! Helper lemmas about the store model. -/

lemma applyBatch_data (b : List LoadRow) :
    ∀ (s : Store) (k : Str), (applyBatch s b).data k =
      match lastWrite b k with
      | some p => some p
      | none => s.data k := by
  induction b with
  | nil => intro s k; simp [applyBatch, lastWrite]
  | cons r t ih =>
    intro s k
    have step : applyBatch s (r :: t) = applyBatch (upsert s r) t := rfl
    rw [step, ih (upsert s r) k]
    show (match lastWrite t k with
      | some p => some p
      | none => (upsert s r).data k) = _
    cases hlw : lastWrite t k with
    | some p => simp [lastWrite, hlw]
    | none =>
      by_cases hk : k = r.flight_id
      · subst hk; simp [lastWrite, hlw, upsert]
      · simp [lastWrite, hlw, upsert, hk]

lemma mem_keys_upsert (s : Store) (r : LoadRow) (k : Str) :
    k ∈ (upsert s r).keys ↔ k ∈ s.keys ∨ k = r.flight_id := by
  unfold upsert
  by_cases h : r.flight_id ∈ s.keys
  · simp only [h, if_true]
    constructor
    · exact Or.inl
    · rintro (hk | rfl)
      · exact hk
      · exact h
  · simp [h]

lemma mem_keys_applyBatch (b : List LoadRow) :
    ∀ (s : Store) (k : Str), k ∈ (applyBatch s b).keys ↔
      k ∈ s.keys ∨ ∃ r ∈ b, r.flight_id = k := by
  induction b with
  | nil => intro s k; simp [applyBatch]
  | cons r t ih =>
    intro s k
    have step : applyBatch s (r :: t) = applyBatch (upsert s r) t := rfl
    rw [step, ih (upsert s r) k, mem_keys_upsert]
    constructor
    · rintro ((hk | rfl) | ⟨r2, hr2, rfl⟩)
      · exact Or.inl hk
      · exact Or.inr ⟨r, List.mem_cons_self r t, rfl⟩
      · exact Or.inr ⟨r2, List.mem_cons_of_mem r hr2, rfl⟩
    · rintro (hk | ⟨r2, hr2, rfl⟩)
      · exact Or.inl (Or.inl hk)
      · rcases List.mem_cons.mp hr2 with rfl | hr2
        · exact Or.inl (Or.inr rfl)
        · exact Or.inr ⟨r2, hr2, rfl⟩

lemma keys_applyBatch_stable (b : List LoadRow) :
    ∀ s : Store, (∀ r ∈ b, r.flight_id ∈ s.keys) →
      (applyBatch s b).keys = s.keys := by
  induction b with
  | nil => intro s _; rfl
  | cons r t ih =>
    intro s h
    have hr : r.flight_id ∈ s.keys := h r (List.mem_cons_self r t)
    have hkeys : (upsert s r).keys = s.keys := by simp [upsert, hr]
    have step : applyBatch s (r :: t) = applyBatch (upsert s r) t := rfl
    rw [step, ih (upsert s r) (fun r2 hr2 => by
      rw [hkeys]; exact h r2 (List.mem_cons_of_mem r hr2)), hkeys]

/-! Helper lemma about the batching loop. -/

lemma loadChunk_foldl_invariant (batchSize : ℕ) (chunk : List RawRec) :
    ∀ (t : ℕ) (rs : List LoadRow),
      (chunk.foldl (loadChunkStep batchSize) (t, rs)).1 +
        (chunk.foldl (loadChunkStep batchSize) (t, rs)).2.length =
      t + rs.length + ((chunk.map norm_cols).filterMap processRow).length := by
  induction chunk with
  | nil => intro t rs; simp
  | cons rec rest ih =>
    intro t rs
    have hstep : loadChunkStep batchSize (t, rs) rec =
        match processRow (norm_cols rec) with
        | none => (t, rs)
        | some row =>
          if batchSize ≤ (rs ++ [row]).length then (t + (rs ++ [row]).length, [])
          else (t, rs ++ [row]) := rfl
    rw [List.foldl_cons, List.map_cons, List.filterMap_cons, hstep]
    cases hpr : processRow (norm_cols rec) with
    | none =>
      exact ih t rs
    | some row =>
      show (rest.foldl (loadChunkStep batchSize)
          (if batchSize ≤ (rs ++ [row]).length then (t + (rs ++ [row]).length, [])
            else (t, rs ++ [row]))).1 +
        (rest.foldl (loadChunkStep batchSize)
          (if batchSize ≤ (rs ++ [row]).length then (t + (rs ++ [row]).length, [])
            else (t, rs ++ [row]))).2.length =
        t + rs.length + (row :: (rest.map norm_cols).filterMap processRow).length
      by_cases hfull : batchSize ≤ (rs ++ [row]).length
      · rw [if_pos hfull, ih (t + (rs ++ [row]).length) []]
        simp only [List.length_append, List.length_cons, List.length_nil]
        omega
      · rw [if_neg hfull, ih t (rs ++ [row])]
        simp only [List.length_append, List.length_cons, List.length_nil]
        omega

lemma loadChunk_eq (batchSize t : ℕ) (c : List RawRec) :
    loadChunk batchSize t c = t + ((c.map norm_cols).filterMap processRow).length := by
  unfold loadChunk
  rw [loadChunk_foldl_invariant batchSize c t []]
  simp

lemma mainTotal_foldl (batchSize : ℕ) (chunks : List (List RawRec)) :
    ∀ t : ℕ, chunks.foldl (loadChunk batchSize) t =
      t + (chunks.map (fun c => ((c.map norm_cols).filterMap processRow).length)).sum := by
  induction chunks with
  | nil => intro t; simp
  | cons c rest ih =>
    intro t
    rw [List.foldl_cons, loadChunk_eq, ih]
    simp only [List.map_cons, List.sum_cons]
    omega

/-- C3: `CleanFlight` construction accepts `crs_dep_time` exactly for
integers in [0, 2359] whose minute component is below 60; in particular
2359 is accepted while 2360, 2400 and -1 are rejected. -/
theorem crs_dep_time_validation_boundary :
    (∀ v : ℤ, validate_crs_dep_time v = Except.ok v ↔
      0 ≤ v ∧ v ≤ 2359 ∧ v % 100 < 60) ∧
    validate_crs_dep_time 2359 = Except.ok 2359 ∧
    (validate_crs_dep_time 2360).isOk = false ∧
    (validate_crs_dep_time 2400).isOk = false ∧
    (validate_crs_dep_time (-1)).isOk = false := by
  refine ⟨fun v => ?_, rfl, rfl, rfl, rfl⟩
  unfold validate_crs_dep_time
  by_cases h1 : v < 0 ∨ v > 2359
  · rw [if_pos h1]
    exact iff_of_false (fun h => Except.noConfusion h) (by omega)
  · rw [if_neg h1]
    by_cases h2 : v % 100 ≥ 60
    · rw [if_pos h2]
      exact iff_of_false (fun h => Except.noConfusion h) (by omega)
    · rw [if_neg h2]
      exact iff_of_true rfl (by omega)

/-- C9: the coercion helpers are total and never raise: `to_int` yields
the float-then-truncate integer when parsing succeeds and `None` on
null/NaN/unparseable input, `to_float` yields the parsed value or `None`,
and both pass already-numeric input through unchanged. -/
theorem coercion_helpers_total :
    to_int vNone = none ∧ to_int vNaN = none ∧
    (∀ z : ℤ, to_int (vInt z) = some z) ∧
    (∀ q : ℚ, to_int (vFloat q) = some (truncQ q)) ∧
    (∀ s : Str, to_int (vStr s) = (pyFloatOfStr s).map truncQ) ∧
    (∀ y m d : ℕ, to_int (vDate y m d) = none) ∧
    to_float vNone = none ∧ to_float vNaN = none ∧
    (∀ z : ℤ, to_float (vInt z) = some (PFloat.fin (z : ℚ))) ∧
    (∀ q : ℚ, to_float (vFloat q) = some (PFloat.fin q)) ∧
    (∀ s : Str, to_float (vStr s) = (pyFloatOfStr s).map PFloat.fin) ∧
    (∀ y m d : ℕ, to_float (vDate y m d) = none) := by
  refine ⟨rfl, rfl, fun z => ?_, fun q => rfl, fun s => ?_, fun y m d => rfl,
    rfl, rfl, fun z => rfl, fun q => rfl, fun s => ?_, fun y m d => rfl⟩
  · simp [to_int, pyIntOfFloatVal, pyFloatFn, pyIntFn, truncQ_intCast]
  · simp only [to_int, pyIntOfFloatVal, pyFloatFn]
    cases h : pyFloatOfStr s <;> simp [h, pyIntFn]
  · simp only [to_float, pyFloatFn]
    cases h : pyFloatOfStr s <;> simp [h]

/-- C6: the batch upsert is idempotent over the store state: applying the
same batch twice (find-or-create by `flight_id`, then overwrite the row's
properties) yields the same final store state and entity count as applying
it once. -/
theorem batch_upsert_idempotent :
    ∀ (s : Store) (b : List LoadRow),
      applyBatch (applyBatch s b) b = applyBatch s b ∧
      (applyBatch (applyBatch s b) b).keys.length = (applyBatch s b).keys.length := by
  intro s b
  have hmem : ∀ r ∈ b, r.flight_id ∈ (applyBatch s b).keys := fun r hr =>
    (mem_keys_applyBatch b s r.flight_id).mpr (Or.inr ⟨r, hr, rfl⟩)
  have hstate : applyBatch (applyBatch s b) b = applyBatch s b := by
    refine Store.ext (keys_applyBatch_stable b _ hmem) ?_
    funext k
    rw [applyBatch_data b (applyBatch s b) k]
    cases hlw : lastWrite b k with
    | some p => rw [applyBatch_data b s k, hlw]
    | none => rfl
  exact ⟨hstate, by rw [hstate]⟩

/-- C5: rows whose resolved origin or dest is absent are excluded from the
batch without error, and the reported total of inserted rows equals the
number of non-excluded rows; a 3-row CSV with one row missing `dest`
reports exactly 2 rows inserted. -/
theorem loader_total_counts_retained_rows :
    (∀ (batchSize : ℕ) (chunks : List (List RawRec)),
      mainTotal batchSize chunks =
        (chunks.map (fun c => ((c.map norm_cols).filterMap processRow).length)).sum) ∧
    (∀ rec : RawRec, processRow rec = none ↔
      (pick rec originKeys = none ∨ pick rec destKeys = none)) ∧
    mainTotal 2000
      [[[("fl_date", vStr "2020-01-01".toList), ("op_carrier", vStr "AA".toList),
         ("op_carrier_fl_num", vInt 100), ("origin", vStr "EWR".toList),
         ("dest", vStr "JFK".toList)],
        [("fl_date", vStr "2020-01-01".toList), ("op_carrier", vStr "AA".toList),
         ("op_carrier_fl_num", vInt 101), ("origin", vStr "EWR".toList)],
        [("fl_date", vStr "2020-01-02".toList), ("op_carrier", vStr "B6".toList),
         ("op_carrier_fl_num", vInt 7), ("origin", vStr "JFK".toList),
         ("dest", vStr "BOS".toList)]]] = 2 ∧
    processRow (norm_cols
      [("fl_date", vStr "2020-01-01".toList), ("op_carrier", vStr "AA".toList),
       ("op_carrier_fl_num", vInt 101), ("origin", vStr "EWR".toList)]) = none := by
  refine ⟨fun batchSize chunks => ?_, fun rec => ?_, by decide, by decide⟩
  · unfold mainTotal
    rw [mainTotal_foldl]
    simp
  · unfold processRow
    cases ho : pick rec originKeys <;> cases hd : pick rec destKeys <;> simp

/-- C10: the production clean-load path performs no schema validation on
retained rows: a row whose origin and dest resolve is written regardless
of its other field values — `crs_dep_time = 2400` is loaded, absent
fields are serialised as the string `None` inside `flight_id`, and the
only exclusion is a missing origin or dest (no validation error exists in
the load path, which is total). -/
theorem load_path_has_no_schema_validation :
    (∀ rec : RawRec, (processRow rec).isSome ↔
      ((pick rec originKeys).isSome ∧ (pick rec destKeys).isSome)) ∧
    processRow
      [("origin", vStr "EWR".toList), ("dest", vStr "JFK".toList),
       ("crs_dep_time", vInt 2400)] =
      some { flight_id := "None_None_None_EWR_JFK".toList
             fl_date := "None".toList
             op_carrier := "None".toList
             op_carrier_fl_num := "None".toList
             origin := "EWR".toList
             dest := "JFK".toList
             crs_dep_time := some 2400
             dep_time := none
             dep_delay := none
             arr_delay := none
             cancelled := none
             diverted := none } := by
  refine ⟨fun rec => ?_, by decide⟩
  unfold processRow
  cases ho : pick rec originKeys <;> cases hd : pick rec destKeys <;> simp

/-- C2: for every valid 5-tuple input (date string or date object,
non-empty codes, scheduled time an integer in [0, 2359]) the Key Builder
returns `DATE|CARRIER|ORIGIN|DEST-TTTT` with the three codes trimmed and
upper-cased and TTTT exactly 4 zero-padded digits; in particular
`build_flight_id("2020-01-01", "AA", "EWR", "JFK", 5)` ends with `-0005`. -/
theorem key_builder_format (ds cs os des : Str) (t : ℤ)
    (hcs : cs ≠ []) (hos : os ≠ []) (hdes : des ≠ [])
    (h0 : 0 ≤ t) (h1 : t ≤ 2359) :
    build_flight_id (vStr ds) (vStr cs) (vStr os) (vStr des) (vInt t) =
      Except.ok (stripWS ds ++ '|' :: pyUpperStr (stripWS cs) ++
        '|' :: pyUpperStr (stripWS os) ++ '|' :: pyUpperStr (stripWS des) ++
        '-' :: pad4 t) ∧
    (pad4 t).length = 4 ∧ (∀ c ∈ pad4 t, c.isDigit = true) ∧
    (∀ y m d : ℕ,
      build_flight_id (vDate y m d) (vStr cs) (vStr os) (vStr des) (vInt t) =
        Except.ok (isoformat y m d ++ '|' :: pyUpperStr (stripWS cs) ++
          '|' :: pyUpperStr (stripWS os) ++ '|' :: pyUpperStr (stripWS des) ++
          '-' :: pad4 t)) ∧
    build_flight_id (vStr "2020-01-01".toList) (vStr "AA".toList)
        (vStr "EWR".toList) (vStr "JFK".toList) (vInt 5) =
      Except.ok "2020-01-01|AA|EWR|JFK-0005".toList ∧
    List.IsSuffix "-0005".toList "2020-01-01|AA|EWR|JFK-0005".toList := by
  obtain ⟨hlen, hdig⟩ := pad4_spec t h0 h1
  refine ⟨?_, hlen, hdig, fun y m d => ?_, by decide, by decide⟩
  · simp [build_flight_id, pyIntOfFloatVal, pyFloatFn, pyIntFn, truncQ_intCast, pyStr]
  · simp [build_flight_id, pyIntOfFloatVal, pyFloatFn, pyIntFn, truncQ_intCast, pyStr]

/-- Witness for C2 at the concrete test input of `test_dedupe.py`. -/
theorem key_builder_format_witness :
    ("AA".toList ≠ ([] : Str)) ∧ ((0 : ℤ) ≤ 5) ∧ ((5 : ℤ) ≤ 2359) ∧
    (pad4 (5 : ℤ)).length = 4 ∧
    build_flight_id (vStr "2020-01-01".toList) (vStr "AA".toList)
        (vStr "EWR".toList) (vStr "JFK".toList) (vInt 5) =
      Except.ok "2020-01-01|AA|EWR|JFK-0005".toList := by
  have h := key_builder_format "2020-01-01".toList "AA".toList "EWR".toList
    "JFK".toList 5 (by decide) (by decide) (by decide) (by decide) (by decide)
  exact ⟨by decide, by decide, by decide, h.2.1, h.2.2.2.2.1⟩

lemma upper_strip_pad {w1 w2 cc c : Str}
    (h1 : ∀ ch ∈ w1, pyIsSpace ch = true) (h2 : ∀ ch ∈ w2, pyIsSpace ch = true)
    (hcc : pyUpperStr cc = pyUpperStr c) :
    pyUpperStr (stripWS (w1 ++ cc ++ w2)) = pyUpperStr (stripWS c) := by
  rw [stripWS_pad cc h1 h2, pyUpperStr_stripWS, hcc, ← pyUpperStr_stripWS]

/-- C7: the Key Builder is invariant under case and surrounding-whitespace
variation of the carrier, origin and dest inputs: varying each code by
letter case and by leading/trailing whitespace leaves the output
unchanged. -/
theorem key_builder_case_ws_invariant
    (d t : PyVal) (c o de cc oo dd w1 w2 u1 u2 x1 x2 : Str)
    (hw1 : ∀ ch ∈ w1, pyIsSpace ch = true) (hw2 : ∀ ch ∈ w2, pyIsSpace ch = true)
    (hu1 : ∀ ch ∈ u1, pyIsSpace ch = true) (hu2 : ∀ ch ∈ u2, pyIsSpace ch = true)
    (hx1 : ∀ ch ∈ x1, pyIsSpace ch = true) (hx2 : ∀ ch ∈ x2, pyIsSpace ch = true)
    (hc : pyUpperStr cc = pyUpperStr c) (ho : pyUpperStr oo = pyUpperStr o)
    (hd : pyUpperStr dd = pyUpperStr de) :
    build_flight_id d (vStr (w1 ++ cc ++ w2)) (vStr (u1 ++ oo ++ u2))
      (vStr (x1 ++ dd ++ x2)) t =
    build_flight_id d (vStr c) (vStr o) (vStr de) t := by
  unfold build_flight_id
  by_cases hg : d = vNone ∨ t = vNone
  · rw [if_pos ?_, if_pos ?_]
    · rcases hg with h | h
      · exact Or.inl h
      · exact Or.inr (Or.inr (Or.inr (Or.inr h)))
    · rcases hg with h | h
      · exact Or.inl h
      · exact Or.inr (Or.inr (Or.inr (Or.inr h)))
  · push_neg at hg
    have hng1 : ¬(d = vNone ∨ vStr (w1 ++ cc ++ w2) = vNone ∨
        vStr (u1 ++ oo ++ u2) = vNone ∨ vStr (x1 ++ dd ++ x2) = vNone ∨
        t = vNone) := by simp [hg.1, hg.2]
    have hng2 : ¬(d = vNone ∨ vStr c = vNone ∨ vStr o = vNone ∨
        vStr de = vNone ∨ t = vNone) := by simp [hg.1, hg.2]
    rw [if_neg hng1, if_neg hng2]
    have e1 : pyUpperStr (stripWS (pyStr (vStr (w1 ++ cc ++ w2)))) =
        pyUpperStr (stripWS (pyStr (vStr c))) := upper_strip_pad hw1 hw2 hc
    have e2 : pyUpperStr (stripWS (pyStr (vStr (u1 ++ oo ++ u2)))) =
        pyUpperStr (stripWS (pyStr (vStr o))) := upper_strip_pad hu1 hu2 ho
    have e3 : pyUpperStr (stripWS (pyStr (vStr (x1 ++ dd ++ x2)))) =
        pyUpperStr (stripWS (pyStr (vStr de))) := upper_strip_pad hx1 hx2 hd
    simp only [e1, e2, e3]

/-- Witness for C7 at the spec's example: carrier `" aa "` versus `"AA"`,
with the other codes varied in case as well. -/
theorem key_builder_case_ws_invariant_witness :
    pyUpperStr "aa".toList = pyUpperStr "AA".toList ∧
    build_flight_id (vStr "2020-01-01".toList) (vStr " aa ".toList)
      (vStr "ewr".toList) (vStr "jFk".toList) (vInt 5) =
    build_flight_id (vStr "2020-01-01".toList) (vStr "AA".toList)
      (vStr "EWR".toList) (vStr "JFK".toList) (vInt 5) := by
  refine ⟨by decide, ?_⟩
  have h := key_builder_case_ws_invariant (vStr "2020-01-01".toList) (vInt 5)
    "AA".toList "EWR".toList "JFK".toList "aa".toList "ewr".toList "jFk".toList
    [' '] [' '] [] [] [] []
    (by decide) (by decide) (by decide) (by decide) (by decide) (by decide)
    (by decide) (by decide) (by decide)
  simpa using h

/-- C8: `CleanFlight` validation is idempotent: for a record already in
normalized form (trimmed upper-case non-empty codes, valid HHMM time),
re-validating its fields yields a record identical field-for-field. -/
theorem clean_flight_validation_idempotent
    (fid : Str) (dt : PDate) (c o d : Str) (t : ℤ)
    (dd ad dist : Option ℚ) (cc dv : ℤ)
    (hc1 : stripWS c = c) (hc2 : pyUpperStr c = c) (hc0 : c ≠ [])
    (ho1 : stripWS o = o) (ho2 : pyUpperStr o = o) (ho0 : o ≠ [])
    (hd1 : stripWS d = d) (hd2 : pyUpperStr d = d) (hd0 : d ≠ [])
    (ht0 : 0 ≤ t) (ht1 : t ≤ 2359) (ht2 : t % 100 < 60) :
    mkCleanFlight fid dt (some c) (some o) (some d) t dd ad cc dv dist =
      Except.ok ⟨fid, dt, c, o, d, t, dd, ad, cc, dv, dist⟩ := by
  have hg1 : ¬(t < 0 ∨ t > 2359) := by omega
  have hg2 : ¬(t % 100 ≥ 60) := by omega
  simp [mkCleanFlight, normalize_codes, validate_crs_dep_time, hc1, hc2, hc0,
    ho1, ho2, ho0, hd1, hd2, hd0, hg1, hg2, Bind.bind, Except.bind, Pure.pure,
    Except.pure]

/-- Witness for C8 at a concrete already-normalized record. -/
theorem clean_flight_validation_idempotent_witness :
    stripWS "AA".toList = "AA".toList ∧
    pyUpperStr "AA".toList = "AA".toList ∧
    mkCleanFlight "k".toList ⟨2020, 1, 1⟩ (some "AA".toList) (some "EWR".toList)
        (some "JFK".toList) 900 (some 5) (some 3) 0 0 (some 20) =
      Except.ok ⟨"k".toList, ⟨2020, 1, 1⟩, "AA".toList, "EWR".toList,
        "JFK".toList, 900, some 5, some 3, 0, 0, some 20⟩ := by
  refine ⟨by decide, by decide, ?_⟩
  exact clean_flight_validation_idempotent "k".toList ⟨2020, 1, 1⟩
    "AA".toList "EWR".toList "JFK".toList 900 (some 5) (some 3) (some 20) 0 0
    (by decide) (by decide) (by decide) (by decide) (by decide) (by decide)
    (by decide) (by decide) (by decide) (by decide) (by decide) (by decide)

/-- A concrete input record for the load path (scheduled departure 900). -/
def sampleRec900 : RawRec :=
  [("fl_date", vStr "2020-01-01".toList), ("op_carrier", vStr "AA".toList),
   ("op_carrier_fl_num", vInt 100), ("origin", vStr "EWR".toList),
   ("dest", vStr "JFK".toList), ("crs_dep_time", vInt 900)]

/-- The same record with only the scheduled departure changed to 1030. -/
def sampleRec1030 : RawRec :=
  [("fl_date", vStr "2020-01-01".toList), ("op_carrier", vStr "AA".toList),
   ("op_carrier_fl_num", vInt 100), ("origin", vStr "EWR".toList),
   ("dest", vStr "JFK".toList), ("crs_dep_time", vInt 1030)]

/-- C1 counterexample: two load-path records that differ only in
`crs_dep_time` (900 versus 1030) are both retained and receive the SAME
`flight_id`, refuting the claim that records differing in any of the five
fields — in particular in `crs_dep_time` alone — get different keys. -/
theorem load_key_ignores_crs_dep_time_counterexample :
    (processRow sampleRec900).map (fun r => r.crs_dep_time) = some (some 900) ∧
    (processRow sampleRec1030).map (fun r => r.crs_dep_time) = some (some 1030) ∧
    (processRow sampleRec900).map (fun r => r.flight_id) =
      some "2020-01-01_AA_100_EWR_JFK".toList ∧
    (processRow sampleRec1030).map (fun r => r.flight_id) =
      some "2020-01-01_AA_100_EWR_JFK".toList := by
  decide

/-- C1 (amended): the load-path `flight_id` is a deterministic pure
function of the resolved (`fl_date`, `op_carrier`, `op_carrier_fl_num`,
`origin`, `dest`): two records agreeing on those five resolved values get
the same key — `crs_dep_time` does not enter the key at all, so records
differing only in it get the SAME key. -/
theorem load_key_function_of_resolved_five
    (r1 r2 : RawRec)
    (h1 : pick r1 flDateKeys = pick r2 flDateKeys)
    (h2 : pick r1 carrierKeys = pick r2 carrierKeys)
    (h3 : pick r1 flNumKeys = pick r2 flNumKeys)
    (h4 : pick r1 originKeys = pick r2 originKeys)
    (h5 : pick r1 destKeys = pick r2 destKeys) :
    (processRow r1).map (fun r => r.flight_id) =
      (processRow r2).map (fun r => r.flight_id) := by
  simp only [processRow, h1, h2, h3, h4, h5]
  cases pick r2 originKeys <;> cases pick r2 destKeys <;> simp

/-- Witness for the amended C1 at the two concrete records that differ
only in `crs_dep_time`. -/
theorem load_key_function_of_resolved_five_witness :
    pick sampleRec900 flDateKeys = pick sampleRec1030 flDateKeys ∧
    (processRow sampleRec900).map (fun r => r.flight_id) =
      (processRow sampleRec1030).map (fun r => r.flight_id) := by
  refine ⟨by decide, ?_⟩
  exact load_key_function_of_resolved_five sampleRec900 sampleRec1030
    (by decide) (by decide) (by decide) (by decide) (by decide)

/-- A row for `build_flight_id` in which all five fields are present and
the scheduled time is the edge value 0. -/
def zeroTimeRow : RawRec :=
  [("fl_date", vStr "2020-01-01".toList), ("carrier", vStr "AA".toList),
   ("origin", vStr "EWR".toList), ("dest", vStr "JFK".toList),
   ("crs_dep_time", vInt 0)]

/-- C4 counterexample: in the mapping call style all five required fields
are present — scheduled time is the edge value 0 — yet the Key Builder
raises its missing-field error, because Python `or`-chaining treats the
present-but-falsy value 0 as absent. -/
theorem key_builder_missing_counterexample :
    getVal zeroTimeRow "crs_dep_time" = vInt 0 ∧
    (∀ k ∈ ["fl_date", "carrier", "origin", "dest", "crs_dep_time"],
      getVal zeroTimeRow k ≠ vNone) ∧
    build_flight_id_row zeroTimeRow = Except.error missingMsg := by
  decide

lemma pyFloatFn_error_ne_missing :
    ∀ (v : PyVal) (e : Str), pyFloatFn v = Except.error e → e ≠ missingMsg := by
  intro v e h
  cases v with
  | vNone => simp only [pyFloatFn] at h; cases h; decide
  | vInt z => exact Except.noConfusion h
  | vFloat q => exact Except.noConfusion h
  | vNaN => exact Except.noConfusion h
  | vStr s =>
    simp only [pyFloatFn] at h
    cases hps : pyFloatOfStr s with
    | some q => rw [hps] at h; exact Except.noConfusion h
    | none => rw [hps] at h; cases h; decide
  | vDate y m d => simp only [pyFloatFn] at h; cases h; decide

lemma pyIntFn_error_ne_missing :
    ∀ (f : PFloat) (e : Str), pyIntFn f = Except.error e → e ≠ missingMsg := by
  intro f e h
  cases f with
  | fin q => exact Except.noConfusion h
  | nan => simp only [pyIntFn] at h; cases h; decide

lemma pyIntOfFloatVal_error_ne_missing :
    ∀ (v : PyVal) (e : Str), pyIntOfFloatVal v = Except.error e → e ≠ missingMsg := by
  intro v e h
  unfold pyIntOfFloatVal at h
  cases hf : pyFloatFn v with
  | error e2 =>
    rw [hf] at h
    cases h
    exact pyFloatFn_error_ne_missing v _ hf
  | ok f =>
    rw [hf] at h
    exact pyIntFn_error_ne_missing f e h

/-- C4 (amended): the Key Builder raises its missing-field error exactly
when one of the five values resolves to `None` after the `or`-chained
alias lookup — which treats present-but-falsy values (0, empty string) as
absent — and in the positional style any five non-`None` arguments with an
integer scheduled time (including 0) produce a key without raising. -/
theorem key_builder_missing_field_error_iff :
    (∀ row : RawRec,
      build_flight_id_row row = Except.error missingMsg ↔
        (pyOr (pyOr (getVal row "fl_date") (getVal row "FL_DATE"))
          (getVal row "date") = vNone ∨
         pyOr (pyOr (getVal row "carrier") (getVal row "op_carrier"))
          (getVal row "OP_CARRIER") = vNone ∨
         pyOr (getVal row "origin") (getVal row "ORIGIN") = vNone ∨
         pyOr (getVal row "dest") (getVal row "DEST") = vNone ∨
         pyOr (getVal row "crs_dep_time") (getVal row "CRS_DEP_TIME") = vNone)) ∧
    (∀ (fd c o d : PyVal) (n : ℤ), fd ≠ vNone → c ≠ vNone → o ≠ vNone →
      d ≠ vNone → ∃ key, build_flight_id fd c o d (vInt n) = Except.ok key) := by
  constructor
  · intro row
    unfold build_flight_id_row build_flight_id
    by_cases hg : pyOr (pyOr (getVal row "fl_date") (getVal row "FL_DATE"))
        (getVal row "date") = vNone ∨
        pyOr (pyOr (getVal row "carrier") (getVal row "op_carrier"))
          (getVal row "OP_CARRIER") = vNone ∨
        pyOr (getVal row "origin") (getVal row "ORIGIN") = vNone ∨
        pyOr (getVal row "dest") (getVal row "DEST") = vNone ∨
        pyOr (getVal row "crs_dep_time") (getVal row "CRS_DEP_TIME") = vNone
    · rw [if_pos hg]
      exact iff_of_true rfl hg
    · rw [if_neg hg]
      refine iff_of_false ?_ hg
      cases hf : pyIntOfFloatVal (pyOr (getVal row "crs_dep_time")
          (getVal row "CRS_DEP_TIME")) with
      | error e =>
        intro hcontra
        have he : (Except.error e : Except Str Str) = Except.error missingMsg :=
          hcontra
        have he2 : e = missingMsg := by cases he; rfl
        exact pyIntOfFloatVal_error_ne_missing _ e hf he2
      | ok n =>
        intro hcontra
        simp at hcontra
  · intro fd c o d n hfd hc ho hd
    unfold build_flight_id
    rw [if_neg (by simp [hfd, hc, ho, hd])]
    exact ⟨_, rfl⟩

/-- Witness for the amended C4: the zero-time row resolves its scheduled
time to `None` and errors, and the positional style succeeds on the same
field values including time 0. -/
theorem key_builder_missing_field_error_iff_witness :
    build_flight_id_row zeroTimeRow = Except.error missingMsg ∧
    (vStr "AA".toList ≠ vNone) ∧
    (∃ key, build_flight_id (vStr "2020-01-01".toList) (vStr "AA".toList)
      (vStr "EWR".toList) (vStr "JFK".toList) (vInt 0) = Except.ok key) := by
  refine ⟨?_, by decide, ?_⟩
  · exact (key_builder_missing_field_error_iff.1 zeroTimeRow).mpr (by decide)
  · exact key_builder_missing_field_error_iff.2 (vStr "2020-01-01".toList)
      (vStr "AA".toList) (vStr "EWR".toList) (vStr "JFK".toList) 0
      (by decide) (by decide) (by decide) (by decide)
